import Mathlib

/-
Verification of the IWSLT data module (dynn/data/iwslt.py).

Shallow embedding conventions:
  * a text line is a `List Char` (as produced by iterating a Python file
    object, so lines normally keep their trailing newline);
  * a file system is a partial map from path strings to lists of lines;
  * Python exceptions become an error type returned through `Except`;
  * `read_iwslt` additionally returns the list of files it opened, in order,
    so that claims about "before any file is opened" are expressible;
  * the generator's runtime behaviour (opens, yields, closes) is modelled as
    an event trace, with early consumer termination as a trace cut-off.
-/

namespace Iwslt

abbrev Line := List Char
abbrev Tok := List Char
abbrev TokPair := List Tok × List Tok
abbrev SplitRes := List (List Tok) × List (List Tok)
abbrev FS := String → Option (List Line)

/-- Characters treated as whitespace by Python `str.strip` / `str.split`
(ASCII whitespace; the corpus is ASCII/UTF-8 text lines). -/
def pySpace (c : Char) : Bool :=
  c == ' ' || c == '\t' || c == '\n' || c == '\r' || c == '\x0b' || c == '\x0c'

/-- Python `str.strip()`: drop whitespace from both ends. -/
def pyStrip (l : Line) : Line :=
  ((l.dropWhile pySpace).reverse.dropWhile pySpace).reverse

/-- Helper for `pySplit`: `acc` holds the (reversed) current token. -/
def pySplitAux : List Char → List Char → List Tok
  | [], acc => if acc.isEmpty then [] else [acc.reverse]
  | c :: cs, acc =>
    if pySpace c then
      if acc.isEmpty then pySplitAux cs [] else acc.reverse :: pySplitAux cs []
    else pySplitAux cs (c :: acc)

/-- Python `str.split()` with no separator: split on runs of whitespace,
discarding empty tokens. -/
def pySplit (l : Line) : List Tok :=
  pySplitAux l []

/-- The regex `is_meta = ^<.*` matches a line exactly when its first
character is `<`. -/
def is_meta (l : Line) : Bool :=
  match l with
  | [] => false
  | c :: _ => c == '<'

/-- Prefix test on character lists. -/
def leadsWith : List Char → List Char → Bool
  | [], _ => true
  | _ :: _, [] => false
  | p :: ps, c :: cs => p == c && leadsWith ps cs

/-- The literal `</seg>` closing tag. -/
def closeSeg : List Char := ['<', '/', 's', 'e', 'g', '>']

/-- Consume `[^>]*>`: drop characters up to and including the first `>`
(a negated class also matches newlines); `none` when no `>` remains. -/
def afterFirstGt : List Char → Option (List Char)
  | [] => none
  | c :: cs => if c == '>' then some cs else afterFirstGt cs

/-- Match `(.*)</seg>` at the start of the input, with `.` not matching a
newline and `(.*)` greedy: return the longest `g` free of newlines such that
the input is `g ++ "</seg>" ++ rest`. -/
def lastCloseSegSplit : List Char → Option (List Char)
  | [] => none
  | c :: cs =>
    if c == '\n' then none
    else
      match lastCloseSegSplit cs with
      | some g => some (c :: g)
      | none => if leadsWith closeSeg (c :: cs) then some [] else none

/-- The regex `eval_segment = ^<seg[^>]*>(.*)</seg>` applied with `.match`:
`some g` is the captured group 1, `none` means no match. -/
def eval_segment (l : Line) : Option (List Char) :=
  if leadsWith ['<', 's', 'e', 'g'] l then
    match afterFirstGt (l.drop 4) with
    | none => none
    | some rest => lastCloseSegSplit rest
  else none

/-- The optional end-of-sequence token as a (zero- or one-element) list. -/
def eosList : Option Tok → List Tok
  | none => []
  | some e => [e]

/-- Tokenisation of one (content) line in `read_iwslt`:
`strip`, `split`, then maybe append the eos token. -/
def line_tokens (eos : Option Tok) (l : Line) : List Tok :=
  pySplit (pyStrip l) ++ eosList eos

/-- The body of `read_iwslt`'s loop for one `(src, tgt)` line pair:
`none` means the pair is skipped, `some` is the yielded pair. -/
def process_pair (is_train : Bool) (eos : Option Tok) (p : Line × Line) :
    Option TokPair :=
  if is_train && is_meta p.1 && is_meta p.2 then none
  else if !is_train then
    match eval_segment p.1, eval_segment p.2 with
    | some sg, some tg => some (line_tokens eos sg, line_tokens eos tg)
    | _, _ => none
  else some (line_tokens eos p.1, line_tokens eos p.2)

/-- All pairs yielded by `read_iwslt`'s loop: the two files are read in
lockstep (`zip`) and each pair is filtered/transformed by `process_pair`. -/
def read_pairs (is_train : Bool) (eos : Option Tok)
    (srcLines tgtLines : List Line) : List TokPair :=
  (srcLines.zip tgtLines).filterMap (process_pair is_train eos)

/-- The `supported` registry: dataset key to per-split filename stems. -/
def supported : List (String × List (String × String)) :=
  [("2016.de-en",
     [("train", "train.tags.de-en"),
      ("dev", "IWSLT16.TED.tst2013.de-en"),
      ("test", "IWSLT16.TED.tst2014.de-en")]),
   ("2016.fr-en",
     [("train", "train.tags.fr-en"),
      ("dev", "IWSLT16.TED.tst2013.fr-en"),
      ("test", "IWSLT16.TED.tst2014.fr-en")])]

/-- Helper for `supported_string`: Python `", ".join(...)`. -/
def joinComma : List String → String
  | [] => ""
  | [k] => k
  | k :: k2 :: rest => k ++ ", " ++ joinComma (k2 :: rest)

/-- `supported_string = ", ".join(supported)` (joins the keys). -/
def supported_string : String :=
  joinComma (supported.map Prod.fst)

/-- `local_dir(year, langpair) = f"iwslt{year}.{langpair}"`. -/
def local_dir (year langpair : String) : String :=
  "iwslt" ++ year ++ "." ++ langpair

/-- The local archive name `f"iwslt{year}.{langpair}.tgz"`. -/
def local_file (year langpair : String) : String :=
  "iwslt" ++ year ++ "." ++ langpair ++ ".tgz"

/-- `os.path.join` for one separator step. -/
def joinPath (a b : String) : String :=
  a ++ "/" ++ b

/-- Leading-slash test. -/
def isAbs (p : String) : Bool :=
  match p.toList with
  | '/' :: _ => true
  | _ => false

/-- Model of `os.path.abspath` relative to the process working directory
`cwd` (exact on `"."` and on already-absolute paths; no `..` folding, which
no claim exercises). -/
def abspath (cwd p : String) : String :=
  if p = "." then cwd else if isAbs p then p else joinPath cwd p

/-- How the operating system resolves a possibly-relative path against the
process working directory. -/
def resolve (cwd p : String) : String :=
  if isAbs p then p else joinPath cwd p

/-- Helper for `splitDash`. -/
def splitDashAux : List Char → List Char → List String
  | [], acc => [String.mk acc.reverse]
  | c :: cs, acc =>
    if c == '-' then String.mk acc.reverse :: splitDashAux cs []
    else splitDashAux cs (c :: acc)

/-- Python `langpair.split("-")`. -/
def splitDash (s : String) : List String :=
  splitDashAux s.toList []

/-- Python exceptions raised by this module. -/
inductive PyError where
  | valueError (msg : String)
  | keyError (key : String)
  | fileNotFound (p : String)
  deriving DecidableEq

instance {ε α : Type} [DecidableEq ε] [DecidableEq α] : DecidableEq (Except ε α) :=
  fun a b =>
    match a, b with
    | Except.error e1, Except.error e2 =>
      if h : e1 = e2 then isTrue (by rw [h]) else isFalse (by intro hc; cases hc; exact h rfl)
    | Except.ok v1, Except.ok v2 =>
      if h : v1 = v2 then isTrue (by rw [h]) else isFalse (by intro hc; cases hc; exact h rfl)
    | Except.error _, Except.ok _ => isFalse (by intro hc; cases hc)
    | Except.ok _, Except.error _ => isFalse (by intro hc; cases hc)

/-- The split names accepted by `read_iwslt` (the source compares with
`is` on interned literals; for the values the claims quantify over this
coincides with string equality). -/
def split_valid (split : String) : Bool :=
  split == "test" || split == "dev" || split == "train"

/-- Path resolution of `read_iwslt` after the split check: returns the
source and target file paths (`KeyError` when a registry lookup fails,
`ValueError` when the langpair does not split into two parts). -/
def file_pair (cwd split path year langpair : String) :
    Except PyError (String × String) :=
  match splitDash langpair with
  | [src, tgt] =>
    let directory := local_dir year langpair
    let root_path := joinPath (abspath cwd path) directory
    match supported.lookup (year ++ "." ++ langpair) with
    | none => Except.error (PyError.keyError (year ++ "." ++ langpair))
    | some m =>
      match m.lookup split with
      | none => Except.error (PyError.keyError split)
      | some stem =>
        let src_base := joinPath (joinPath root_path langpair) (stem ++ "." ++ src)
        let tgt_base := joinPath (joinPath root_path langpair) (stem ++ "." ++ tgt)
        if split == "train" then Except.ok (src_base, tgt_base)
        else Except.ok (src_base ++ ".xml", tgt_base ++ ".xml")
  | _ => Except.error (PyError.valueError "not enough values to unpack")

/-- `read_iwslt(split, path, year, langpair, eos)` over an abstract file
system: first component is the list of files opened (in order), second the
outcome (the fully materialised sequence of yielded pairs, or the
exception). -/
def read_iwslt (fs : FS) (cwd split path year langpair : String)
    (eos : Option Tok) : List String × Except PyError (List TokPair) :=
  if split_valid split then
    match file_pair cwd split path year langpair with
    | Except.error e => ([], Except.error e)
    | Except.ok (sf, tf) =>
      match fs sf with
      | none => ([], Except.error (PyError.fileNotFound sf))
      | some sL =>
        match fs tf with
        | none => ([sf], Except.error (PyError.fileNotFound tf))
        | some tL =>
          ([sf, tf], Except.ok (read_pairs (split == "train") eos sL tL))
  else ([], Except.error (PyError.valueError "split must be \"train\", \"dev\" or \"test\""))

/-- Materialisation of one split in `load_iwslt`: the list comprehensions
`[src for src, _ in data]` and `[tgt for _, tgt in data]`. -/
def split_result (data : List TokPair) : SplitRes :=
  (data.map Prod.fst, data.map Prod.snd)

/-- The loop of `load_iwslt` over split names, threading opened files. -/
def load_splits (fs : FS) (cwd path year langpair : String)
    (eos : Option Tok) : List String → List String × Except PyError (List SplitRes)
  | [] => ([], Except.ok [])
  | s :: rest =>
    let r := read_iwslt fs cwd s path year langpair eos
    match r.2 with
    | Except.error e => (r.1, Except.error e)
    | Except.ok data =>
      let rr := load_splits fs cwd path year langpair eos rest
      match rr.2 with
      | Except.error e => (r.1 ++ rr.1, Except.error e)
      | Except.ok tail => (r.1 ++ rr.1, Except.ok (split_result data :: tail))

/-- `load_iwslt(path, year, langpair, eos)`. -/
def load_iwslt (fs : FS) (cwd path year langpair : String)
    (eos : Option Tok) : List String × Except PyError (List SplitRes) :=
  if (supported.lookup (year ++ "." ++ langpair)).isSome then
    load_splits fs cwd path year langpair eos ["train", "dev", "test"]
  else
    ([], Except.error (PyError.valueError
      (year ++ "." ++ langpair ++ " not supported. Supported datasets are " ++
        supported_string)))

/-- File-system effects performed by `download_iwslt`. -/
inductive FsEffect where
  | mkdir (d : String)
  | extractTo (archive dest : String)
  deriving DecidableEq

/-- The effects `download_iwslt(path, year, langpair)` performs after the
download step, given whether a new download happened and whether the target
directory already exists. Faithful to the source: `abs_filename` joins the
absolute `path` with the archive name, while `directory` is the bare
`local_dir(year, langpair)` string, a path relative to the working
directory, used as-is by `os.mkdir` and `tar.extractall`. -/
def download_effects (cwd path year langpair : String)
    (downloaded dirExists : Bool) : List FsEffect :=
  if downloaded then
    let abs_filename := joinPath (abspath cwd path) (local_file year langpair)
    let directory := local_dir year langpair
    (if dirExists then [] else [FsEffect.mkdir directory]) ++
      [FsEffect.extractTo abs_filename directory]
  else []

/-- Runtime events of the `read_iwslt` generator body. -/
inductive RdEvent where
  | openF (p : String)
  | yieldP (pr : TokPair)
  | closeF (p : String)
  deriving DecidableEq

/-- The yield events of the loop, in order. -/
def yield_events (is_train : Bool) (eos : Option Tok) (sL tL : List Line) :
    List RdEvent :=
  (sL.zip tL).filterMap (fun p => (process_pair is_train eos p).map RdEvent.yieldP)

/-- The full event trace of one `read_iwslt` invocation when the generator
body is run to the end: open both files, yield the surviving pairs, then
execute the two trailing `close()` calls. A failing `open` produces no
handle for that file. -/
def reader_trace (fs : FS) (cwd split path year langpair : String)
    (eos : Option Tok) : List RdEvent :=
  if split_valid split then
    match file_pair cwd split path year langpair with
    | Except.error _ => []
    | Except.ok (sf, tf) =>
      match fs sf with
      | none => []
      | some sL =>
        match fs tf with
        | none => [RdEvent.openF sf]
        | some tL =>
          RdEvent.openF sf :: RdEvent.openF tf ::
            (yield_events (split == "train") eos sL tL ++
              [RdEvent.closeF sf, RdEvent.closeF tf])
  else []

/-- The events actually executed when the consumer requests at most `n`
pairs and then abandons the generator: the generator pauses at each yield,
so once the `n`-th pair has been yielded nothing after that yield runs
(closing an abandoned generator raises GeneratorExit at the paused yield,
which propagates past the trailing `close()` calls). When fewer than `n`
yields exist the loop finishes and every event runs. -/
def execUpTo : Nat → List RdEvent → List RdEvent
  | _, [] => []
  | 0, _ :: _ => []
  | n + 1, e :: es =>
    match e with
    | RdEvent.yieldP pr => RdEvent.yieldP pr :: execUpTo n es
    | _ => e :: execUpTo (n + 1) es

/-- Is an event a yield? -/
def isYield : RdEvent → Bool
  | RdEvent.yieldP _ => true
  | _ => false

/-- Number of yield events in a trace. -/
def yieldCount (l : List RdEvent) : Nat :=
  (l.filter isYield).length

/-- One step of handle tracking: opens push a handle, closes release it. -/
def handleStep (acc : List String) : RdEvent → List String
  | RdEvent.openF p => acc ++ [p]
  | RdEvent.closeF p => acc.erase p
  | RdEvent.yieldP _ => acc

/-- The handles still open after a sequence of executed events. -/
def openAfter (evs : List RdEvent) : List String :=
  evs.foldl handleStep []

/-- Demo file paths for the 2016 de-en dataset rooted at `/data`. -/
def trainSrcPath : String := "/data/iwslt2016.de-en/de-en/train.tags.de-en.de"

def trainTgtPath : String := "/data/iwslt2016.de-en/de-en/train.tags.de-en.en"

def devSrcPath : String := "/data/iwslt2016.de-en/de-en/IWSLT16.TED.tst2013.de-en.de.xml"

def devTgtPath : String := "/data/iwslt2016.de-en/de-en/IWSLT16.TED.tst2013.de-en.en.xml"

def testSrcPath : String := "/data/iwslt2016.de-en/de-en/IWSLT16.TED.tst2014.de-en.de.xml"

def testTgtPath : String := "/data/iwslt2016.de-en/de-en/IWSLT16.TED.tst2014.de-en.en.xml"

/-- A small concrete file system holding a well-formed 2016 de-en corpus. -/
def demoFs : FS := fun p =>
  if p = trainSrcPath then
    some ["<url>a</url>\n".toList, "Hallo Welt\n".toList, "Guten Morgen\n".toList]
  else if p = trainTgtPath then
    some ["<url>b</url>\n".toList, "Hello world\n".toList, "Good morning\n".toList]
  else if p = devSrcPath then some ["<seg id=1> Guten Tag </seg>\n".toList]
  else if p = devTgtPath then some ["<seg id=1> Good day </seg>\n".toList]
  else if p = testSrcPath then
    some ["<doc>\n".toList, "<seg id=1> Danke </seg>\n".toList]
  else if p = testTgtPath then
    some ["<doc>\n".toList, "<seg id=1> Thanks </seg>\n".toList]
  else none

/-- The pairs the train split of `demoFs` yields. -/
def demoTrainPairs : List TokPair :=
  [(["Hallo".toList, "Welt".toList], ["Hello".toList, "world".toList]),
   (["Guten".toList, "Morgen".toList], ["Good".toList, "morning".toList])]

/-- The three split results `load_iwslt` produces on `demoFs`. -/
def demoSplits : List SplitRes :=
  [([["Hallo".toList, "Welt".toList], ["Guten".toList, "Morgen".toList]],
    [["Hello".toList, "world".toList], ["Good".toList, "morning".toList]]),
   ([["Guten".toList, "Tag".toList]], [["Good".toList, "day".toList]]),
   ([["Danke".toList]], [["Thanks".toList]])]

theorem pySplitAux_clean :
    ∀ (l acc : List Char), (∀ c ∈ acc, pySpace c = false) →
      ∀ tok ∈ pySplitAux l acc, tok ≠ [] ∧ ∀ c ∈ tok, pySpace c = false := by
  intro l
  induction l with
  | nil =>
    intro acc hacc tok htok
    by_cases he : acc = []
    · subst he; simp [pySplitAux] at htok
    · have hne : acc.isEmpty = false := by simpa [List.isEmpty_iff] using he
      simp [pySplitAux, hne] at htok
      subst htok
      refine ⟨by simpa using he, ?_⟩
      intro c hc
      exact hacc c (List.mem_reverse.mp hc)
  | cons c cs ih =>
    intro acc hacc tok htok
    by_cases hsp : pySpace c = true
    · by_cases he : acc = []
      · subst he
        simp [pySplitAux, hsp] at htok
        exact ih [] (by simp) tok htok
      · have hne : acc.isEmpty = false := by simpa [List.isEmpty_iff] using he
        simp [pySplitAux, hsp, hne] at htok
        rcases htok with h1 | h2
        · subst h1
          refine ⟨by simpa using he, ?_⟩
          intro d hd
          exact hacc d (List.mem_reverse.mp hd)
        · exact ih [] (by simp) tok h2
    · have hf : pySpace c = false := by simpa using hsp
      simp [pySplitAux, hf] at htok
      refine ih (c :: acc) ?_ tok htok
      intro d hd
      rcases List.mem_cons.mp hd with h | h
      · subst h; exact hf
      · exact hacc d h

theorem pySplit_clean (l : Line) :
    ∀ tok ∈ pySplit l, tok ≠ [] ∧ ∀ c ∈ tok, pySpace c = false :=
  pySplitAux_clean l [] (by simp)

theorem pyStrip_eq_nil (l : Line) (h : ∀ c ∈ l, pySpace c = true) :
    pyStrip l = [] := by
  have h1 : l.dropWhile pySpace = [] := List.dropWhile_eq_nil_iff.mpr h
  simp [pyStrip, h1]

theorem length_filterMap_filter {α β : Type} (f : α → Option β) (l : List α) :
    (l.filterMap f).length = (l.filter (fun a => (f a).isSome)).length := by
  induction l with
  | nil => rfl
  | cons a l ih =>
    cases h : f a <;> simp [List.filterMap_cons, h, List.filter_cons, ih]

theorem process_pair_train (eos : Option Tok) (sl tl : Line) :
    process_pair true eos (sl, tl) =
      if is_meta sl && is_meta tl then none
      else some (line_tokens eos sl, line_tokens eos tl) := by
  by_cases h : (is_meta sl && is_meta tl) = true
  · simp [process_pair, h]
  · simp [process_pair, h]

theorem process_pair_eval (eos : Option Tok) (sl tl : Line) :
    process_pair false eos (sl, tl) =
      match eval_segment sl, eval_segment tl with
      | some sg, some tg => some (line_tokens eos sg, line_tokens eos tg)
      | _, _ => none := by
  simp [process_pair]

theorem process_pair_shape (it : Bool) (eos : Option Tok) (p : Line × Line)
    (pr : TokPair) (h : process_pair it eos p = some pr) :
    ∃ s t, pr = (s ++ eosList eos, t ++ eosList eos) ∧
      (∀ tok ∈ s, tok ≠ [] ∧ ∀ c ∈ tok, pySpace c = false) ∧
      (∀ tok ∈ t, tok ≠ [] ∧ ∀ c ∈ tok, pySpace c = false) := by
  obtain ⟨sl, tl⟩ := p
  obtain ⟨pr1, pr2⟩ := pr
  cases it with
  | true =>
    rw [process_pair_train] at h
    by_cases hm : (is_meta sl && is_meta tl) = true
    · rw [if_pos hm] at h; cases h
    · rw [if_neg hm] at h
      simp only [Option.some.injEq, Prod.mk.injEq] at h
      obtain ⟨h1, h2⟩ := h
      refine ⟨pySplit (pyStrip sl), pySplit (pyStrip tl), ?_,
        pySplit_clean _, pySplit_clean _⟩
      simp [← h1, ← h2, line_tokens]
  | false =>
    rw [process_pair_eval] at h
    cases hs : eval_segment sl <;> cases ht : eval_segment tl <;>
      simp only [hs, ht, Option.some.injEq, Prod.mk.injEq] at h <;>
      try exact Option.noConfusion h
    case some.some sg tg =>
      obtain ⟨h1, h2⟩ := h
      refine ⟨pySplit (pyStrip sg), pySplit (pyStrip tg), ?_,
        pySplit_clean _, pySplit_clean _⟩
      simp [← h1, ← h2, line_tokens]

/-- C2: in the train split, a line-pair is skipped exactly when both the
source and the target line begin with `<`; a one-sided metadata line is not
skipped; hence on a train file-pair the reader yields exactly as many pairs
as there are line-pairs that are not metadata on both sides. -/
theorem train_skip_iff_and_count (eos : Option Tok) :
    (∀ sl tl : Line,
      (process_pair true eos (sl, tl) = none ↔ (is_meta sl ∧ is_meta tl))) ∧
    (∀ srcLines tgtLines : List Line,
      (read_pairs true eos srcLines tgtLines).length =
        ((srcLines.zip tgtLines).filter
          (fun p => !(is_meta p.1 && is_meta p.2))).length) := by
  have key : ∀ sl tl : Line,
      (process_pair true eos (sl, tl) = none ↔ (is_meta sl ∧ is_meta tl)) := by
    intro sl tl
    rw [process_pair_train]
    by_cases hm : (is_meta sl && is_meta tl) = true
    · have hm' : is_meta sl = true ∧ is_meta tl = true := by simpa using hm
      simp [hm, hm'.1, hm'.2]
    · rw [if_neg hm]
      simp only [Bool.and_eq_true] at hm
      simp [hm]
  refine ⟨key, ?_⟩
  intro srcLines tgtLines
  rw [read_pairs, length_filterMap_filter]
  congr 1
  apply List.filter_congr
  intro p _
  obtain ⟨sl, tl⟩ := p
  by_cases hm : (is_meta sl && is_meta tl) = true
  · have : process_pair true eos (sl, tl) = none :=
      (key sl tl).mpr (by simpa using hm)
    simp [this, hm]
  · have : ¬ process_pair true eos (sl, tl) = none := by
      rw [key sl tl, ← Bool.and_eq_true]
      exact hm
    cases hp : process_pair true eos (sl, tl) with
    | none => exact absurd hp this
    | some v => simp [Bool.eq_false_iff.mpr hm, hp]

/-- C3: in the dev/test splits, a line-pair is skipped exactly when either
side fails the `<seg ...>CONTENT</seg>` pattern; when both sides match, the
yielded tokens are the whitespace-split of the stripped captured content
(with the optional eos token appended). -/
theorem devtest_joint_skip_and_tokens (eos : Option Tok) :
    (∀ sl tl : Line,
      (process_pair false eos (sl, tl) = none ↔
        (eval_segment sl = none ∨ eval_segment tl = none))) ∧
    (∀ sl tl sg tg, eval_segment sl = some sg → eval_segment tl = some tg →
      process_pair false eos (sl, tl) =
        some (pySplit (pyStrip sg) ++ eosList eos,
              pySplit (pyStrip tg) ++ eosList eos)) := by
  constructor
  · intro sl tl
    rw [process_pair_eval]
    cases hs : eval_segment sl <;> cases ht : eval_segment tl <;> simp
  · intro sl tl sg tg hs ht
    rw [process_pair_eval, hs, ht]
    simp [line_tokens]

theorem devtest_joint_skip_and_tokens_witness :
    process_pair false none
        ("<seg id=1> Guten Tag </seg>\n".toList, "<seg id=2> Good day </seg>\n".toList) =
      some (pySplit (pyStrip " Guten Tag ".toList) ++ eosList none,
            pySplit (pyStrip " Good day ".toList) ++ eosList none) :=
  (devtest_joint_skip_and_tokens none).2
    "<seg id=1> Guten Tag </seg>\n".toList "<seg id=2> Good day </seg>\n".toList
    " Guten Tag ".toList " Good day ".toList (by decide) (by decide)

/-- C7: with an end-of-sequence token supplied, every yielded pair carries
that token as the last token on both sides. -/
theorem eos_token_appended (it : Bool) (e : Tok) (srcLines tgtLines : List Line) :
    ∀ pr ∈ read_pairs it (some e) srcLines tgtLines,
      pr.1.getLast? = some e ∧ pr.2.getLast? = some e := by
  intro pr hpr
  rcases List.mem_filterMap.mp hpr with ⟨p, _, hp⟩
  rcases process_pair_shape it (some e) p pr hp with ⟨s, t, hpr', _, _⟩
  subst hpr'
  exact ⟨List.getLast?_concat s, List.getLast?_concat t⟩

theorem eos_token_appended_witness :
    ((["Hallo".toList, "Welt".toList, "<eos>".toList],
      ["Hello".toList, "world".toList, "<eos>".toList]) : TokPair).1.getLast? =
        some "<eos>".toList ∧
    ((["Hallo".toList, "Welt".toList, "<eos>".toList],
      ["Hello".toList, "world".toList, "<eos>".toList]) : TokPair).2.getLast? =
        some "<eos>".toList :=
  eos_token_appended true "<eos>".toList ["Hallo Welt\n".toList] ["Hello world\n".toList]
    (["Hallo".toList, "Welt".toList, "<eos>".toList],
     ["Hello".toList, "world".toList, "<eos>".toList]) (by decide)

/-- C8: the two files are consumed in lockstep and iteration stops at the
shorter one, so the number of yielded pairs is at most the minimum of the
two line counts. -/
theorem lockstep_yield_bound (it : Bool) (eos : Option Tok)
    (srcLines tgtLines : List Line) :
    (read_pairs it eos srcLines tgtLines).length ≤
      min srcLines.length tgtLines.length := by
  calc (read_pairs it eos srcLines tgtLines).length
      ≤ (srcLines.zip tgtLines).length := List.length_filterMap_le _ _
    _ = min srcLines.length tgtLines.length := List.length_zip srcLines tgtLines

/-- C10: every token of a yielded pair, apart from an appended eos token,
is non-empty and free of whitespace characters; a line-pair of pure
whitespace (train split) yields empty token sequences plus the optional
eos token. -/
theorem token_invariant (it : Bool) (eos : Option Tok)
    (srcLines tgtLines : List Line) :
    (∀ pr ∈ read_pairs it eos srcLines tgtLines,
      ∃ s t, pr = (s ++ eosList eos, t ++ eosList eos) ∧
        ∀ tok ∈ s ++ t, tok ≠ [] ∧ ∀ c ∈ tok, pySpace c = false) ∧
    (∀ ws : Line, (∀ c ∈ ws, pySpace c = true) →
      process_pair true eos (ws, ws) = some (eosList eos, eosList eos)) := by
  constructor
  · intro pr hpr
    rcases List.mem_filterMap.mp hpr with ⟨p, _, hp⟩
    rcases process_pair_shape it eos p pr hp with ⟨s, t, hpr', hs, ht⟩
    refine ⟨s, t, hpr', ?_⟩
    intro tok htok
    rcases List.mem_append.mp htok with h | h
    · exact hs tok h
    · exact ht tok h
  · intro ws hws
    have hmeta : is_meta ws = false := by
      cases ws with
      | nil => rfl
      | cons c cs =>
        have hc : pySpace c = true := hws c (by simp)
        by_cases h : c = '<'
        · subst h; exact absurd hc (by decide)
        · simpa [is_meta] using h
    rw [process_pair_train, hmeta]
    have hstrip : pyStrip ws = [] := pyStrip_eq_nil ws hws
    simp [line_tokens, hstrip, pySplit, pySplitAux]

theorem token_invariant_witness :
    process_pair true (some "<eos>".toList) ("  \t \n".toList, "  \t \n".toList) =
      some (eosList (some "<eos>".toList), eosList (some "<eos>".toList)) :=
  (token_invariant true (some "<eos>".toList) [] []).2 "  \t \n".toList (by decide)

/-- C5: any split other than train/dev/test is rejected with the
`ValueError` up front; the returned opened-file list is empty, so no file
is opened, whatever the file system holds. -/
theorem invalid_split_rejected (fs : FS) (cwd split path year langpair : String)
    (eos : Option Tok)
    (h : split ≠ "train" ∧ split ≠ "dev" ∧ split ≠ "test") :
    read_iwslt fs cwd split path year langpair eos =
      ([], Except.error
        (PyError.valueError "split must be \"train\", \"dev\" or \"test\"")) := by
  have h1 : (split == "test") = false := beq_eq_false_iff_ne.mpr h.2.2
  have h2 : (split == "dev") = false := beq_eq_false_iff_ne.mpr h.2.1
  have h3 : (split == "train") = false := beq_eq_false_iff_ne.mpr h.1
  simp [read_iwslt, split_valid, h1, h2, h3]

theorem invalid_split_rejected_witness :
    read_iwslt (fun _ => none) "/w" "valid" "/data" "2016" "de-en" none =
      ([], Except.error
        (PyError.valueError "split must be \"train\", \"dev\" or \"test\"")) :=
  invalid_split_rejected (fun _ => none) "/w" "valid" "/data" "2016" "de-en" none
    ⟨by decide, by decide, by decide⟩

/-- C6: an unsupported `{year}.{langpair}` key makes `load_iwslt` fail up
front (no reader driven, no file opened) with the `ValueError` whose
message enumerates the supported keys `2016.de-en, 2016.fr-en`. -/
theorem unsupported_dataset_rejected (fs : FS) (cwd path year langpair : String)
    (eos : Option Tok)
    (h : supported.lookup (year ++ "." ++ langpair) = none) :
    load_iwslt fs cwd path year langpair eos =
      ([], Except.error (PyError.valueError
        (year ++ "." ++ langpair ++ " not supported. Supported datasets are " ++
          supported_string))) ∧
    supported_string = "2016.de-en, 2016.fr-en" :=
  ⟨by simp [load_iwslt, h], by decide⟩

theorem unsupported_dataset_rejected_witness :
    load_iwslt (fun _ => none) "/w" "/data" "2099" "xx-yy" none =
      ([], Except.error (PyError.valueError
        ("2099" ++ "." ++ "xx-yy" ++ " not supported. Supported datasets are " ++
          supported_string))) ∧
    supported_string = "2016.de-en, 2016.fr-en" :=
  unsupported_dataset_rejected (fun _ => none) "/w" "/data" "2099" "xx-yy" none (by decide)

/-- C4 (code divergence): with working directory `/home/user` and target
path `/data`, a successful fresh download runs `mkdir` and `extractall` on
the bare relative directory name `iwslt2016.de-en`, which the operating
system resolves under the working directory, not under the given target
path `/data` — where the reader's path resolution then looks for it. -/
theorem download_extract_dir_ignores_path :
    download_effects "/home/user" "/data" "2016" "de-en" true false =
      [FsEffect.mkdir "iwslt2016.de-en",
       FsEffect.extractTo "/data/iwslt2016.de-en.tgz" "iwslt2016.de-en"] ∧
    resolve "/home/user" (local_dir "2016" "de-en") = "/home/user/iwslt2016.de-en" ∧
    joinPath (abspath "/home/user" "/data") (local_dir "2016" "de-en") =
      "/data/iwslt2016.de-en" ∧
    ("/home/user/iwslt2016.de-en" : String) ≠ "/data/iwslt2016.de-en" := by
  exact ⟨by decide, by decide, by decide, by decide⟩

theorem foldl_handleStep_yields (evs : List RdEvent)
    (h : ∀ e ∈ evs, isYield e = true) :
    ∀ acc : List String, evs.foldl handleStep acc = acc := by
  induction evs with
  | nil => intro acc; rfl
  | cons e es ih =>
    intro acc
    cases e with
    | yieldP pr =>
      have : handleStep acc (RdEvent.yieldP pr) = acc := rfl
      rw [List.foldl_cons, this]
      exact ih (fun e he => h e (List.mem_cons_of_mem _ he)) acc
    | openF p =>
      have := h (RdEvent.openF p) (List.mem_cons_self _ _)
      simp [isYield] at this
    | closeF p =>
      have := h (RdEvent.closeF p) (List.mem_cons_self _ _)
      simp [isYield] at this

theorem yield_events_all_yields (it : Bool) (eos : Option Tok)
    (sL tL : List Line) :
    ∀ e ∈ yield_events it eos sL tL, isYield e = true := by
  intro e he
  rcases List.mem_filterMap.mp he with ⟨p, _, hp⟩
  rcases Option.map_eq_some'.mp hp with ⟨pr, _, hpr⟩
  subst hpr
  rfl

theorem execUpTo_all (l : List RdEvent) :
    ∀ n, yieldCount l < n → execUpTo n l = l := by
  induction l with
  | nil => intro n _; cases n <;> rfl
  | cons e es ih =>
    intro n hn
    cases n with
    | zero => exact absurd hn (by simp)
    | succ m =>
      cases e with
      | yieldP pr =>
        have hm : yieldCount es < m := by
          simp [yieldCount, List.filter_cons, isYield] at hn ⊢
          omega
        simp [execUpTo, ih m hm]
      | openF p =>
        have hm : yieldCount es < m + 1 := by
          simpa only [yieldCount, List.filter_cons, isYield] using hn
        simp [execUpTo, ih (m + 1) hm]
      | closeF p =>
        have hm : yieldCount es < m + 1 := by
          simpa only [yieldCount, List.filter_cons, isYield] using hn
        simp [execUpTo, ih (m + 1) hm]

/-- C9 counterexample: on the demo corpus the train split yields two pairs;
a consumer that stops after the first pair never reaches the close calls
placed after the loop, so both file handles stay open. -/
theorem reader_leaks_handles_on_early_stop :
    openAfter (execUpTo 1
        (reader_trace demoFs "/w" "train" "/data" "2016" "de-en" none)) =
      [trainSrcPath, trainTgtPath] ∧
    [trainSrcPath, trainTgtPath] ≠ ([] : List String) := by decide

/-- C9 amended: the handles are released when the consumer exhausts the
iterator of a successful invocation — a consumer requesting more pairs than
the files yield executes the whole trace, whose open and close events
balance; on earlier abandonment the close calls are skipped. -/
theorem reader_closes_handles_on_exhaustion (fs : FS)
    (cwd split path year langpair : String) (eos : Option Tok) (d : List TokPair)
    (h : (read_iwslt fs cwd split path year langpair eos).2 = Except.ok d) :
    openAfter (reader_trace fs cwd split path year langpair eos) = [] ∧
    ∀ n, yieldCount (reader_trace fs cwd split path year langpair eos) < n →
      execUpTo n (reader_trace fs cwd split path year langpair eos) =
        reader_trace fs cwd split path year langpair eos := by
  refine ⟨?_, fun n hn => execUpTo_all _ n hn⟩
  rw [read_iwslt] at h
  by_cases hv : split_valid split = true
  case neg => simp [hv] at h
  case pos =>
    rw [if_pos hv] at h
    cases hfp : file_pair cwd split path year langpair with
    | error e => rw [hfp] at h; simp at h
    | ok sfts =>
      obtain ⟨sf, tf⟩ := sfts
      rw [hfp] at h
      cases hsf : fs sf with
      | none => simp [hsf] at h
      | some sL =>
        cases htf : fs tf with
        | none => simp [hsf, htf] at h
        | some tL =>
          rw [reader_trace, if_pos hv, hfp]
          simp only [hsf, htf]
          rw [openAfter]
          simp only [List.foldl_cons, List.foldl_append]
          rw [foldl_handleStep_yields _ (yield_events_all_yields _ _ _ _)]
          simp [handleStep, List.erase_cons_head]

theorem reader_closes_handles_on_exhaustion_witness :
    openAfter (reader_trace demoFs "/w" "train" "/data" "2016" "de-en" none) = [] ∧
    ∀ n, yieldCount (reader_trace demoFs "/w" "train" "/data" "2016" "de-en" none) < n →
      execUpTo n (reader_trace demoFs "/w" "train" "/data" "2016" "de-en" none) =
        reader_trace demoFs "/w" "train" "/data" "2016" "de-en" none :=
  reader_closes_handles_on_exhaustion demoFs "/w" "train" "/data" "2016" "de-en" none
    demoTrainPairs (by decide)

/-- C1: whenever `load_iwslt` succeeds it returns exactly three split
results, produced by the reader on train, dev and test in that fixed
order, and in each split result the source list and the target list have
the same length. -/
theorem load_three_aligned_splits (fs : FS) (cwd path year langpair : String)
    (eos : Option Tok) (splits : List SplitRes)
    (h : (load_iwslt fs cwd path year langpair eos).2 = Except.ok splits) :
    splits.length = 3 ∧
    (∀ sr ∈ splits, sr.1.length = sr.2.length) ∧
    ∃ d1 d2 d3,
      (read_iwslt fs cwd "train" path year langpair eos).2 = Except.ok d1 ∧
      (read_iwslt fs cwd "dev" path year langpair eos).2 = Except.ok d2 ∧
      (read_iwslt fs cwd "test" path year langpair eos).2 = Except.ok d3 ∧
      splits = [split_result d1, split_result d2, split_result d3] := by
  by_cases hs : (supported.lookup (year ++ "." ++ langpair)).isSome = true
  case neg => rw [load_iwslt, if_neg hs] at h; simp at h
  case pos =>
    rw [load_iwslt, if_pos hs] at h
    cases h1 : (read_iwslt fs cwd "train" path year langpair eos).2 with
    | error e1 => simp [load_splits, h1] at h
    | ok d1 =>
      cases h2 : (read_iwslt fs cwd "dev" path year langpair eos).2 with
      | error e2 => simp [load_splits, h1, h2] at h
      | ok d2 =>
        cases h3 : (read_iwslt fs cwd "test" path year langpair eos).2 with
        | error e3 => simp [load_splits, h1, h2, h3] at h
        | ok d3 =>
          simp only [load_splits, h1, h2, h3, Except.ok.injEq] at h
          subst h
          refine ⟨rfl, ?_, d1, d2, d3, rfl, rfl, rfl, rfl⟩
          intro sr hsr
          simp only [List.mem_cons, List.not_mem_nil, or_false] at hsr
          rcases hsr with h' | h' | h' <;> subst h' <;> simp [split_result]

theorem load_three_aligned_splits_witness :
    demoSplits.length = 3 ∧
    (∀ sr ∈ demoSplits, sr.1.length = sr.2.length) ∧
    ∃ d1 d2 d3,
      (read_iwslt demoFs "/w" "train" "/data" "2016" "de-en" none).2 = Except.ok d1 ∧
      (read_iwslt demoFs "/w" "dev" "/data" "2016" "de-en" none).2 = Except.ok d2 ∧
      (read_iwslt demoFs "/w" "test" "/data" "2016" "de-en" none).2 = Except.ok d3 ∧
      demoSplits = [split_result d1, split_result d2, split_result d3] :=
  load_three_aligned_splits demoFs "/w" "/data" "2016" "de-en" none demoSplits (by decide)

end Iwslt

